import Mathlib

/-!
Shallow embedding of the EnergyGrid aggregator (src/server.js: the embedded
client module and the mock-server middleware).  Pure functions of the source
become Lean functions; the async control flow of `fetchWithRetry` and
`aggregateDeviceData` is embedded as explicit recursion producing, besides the
returned values, the ordered trace of attempts and sleeps.  Wall-clock fields
(`executionTimeSeconds`) and actual network transmission are outside the
embedding; everything else follows the JavaScript line by line.
-/

namespace EnergyGrid

/-! ## Configuration constants (client.js CONFIG and server.js constants) -/

def CONFIG_API_URL : String := "/device/real/query"

def CONFIG_API_TOKEN : String := "interview_token_123"

def CONFIG_BATCH_SIZE : Nat := 10

def CONFIG_RATE_LIMIT_MS : Nat := 1000

def CONFIG_MAX_RETRIES : Nat := 3

def CONFIG_RETRY_DELAY_MS : Nat := 2000

def SECRET_TOKEN : String := "interview_token_123"

/-! ## Data model -/

/-- One device record as produced by the mock endpoint; the client treats it
as an opaque payload (it only counts and concatenates records). -/
structure DeviceRecord where
  sn : String
  power : String
  status : String
  last_updated : String
deriving DecidableEq, Repr

/-- The object `fetchDeviceData` settles its promise with: `success`,
optionally a `data` array, optionally an `error`, and a `statusCode`
(0 for connection-level failures, mirroring the source). -/
structure FetchResult where
  success : Bool
  data : Option (List DeviceRecord)
  error : Option String
  statusCode : Nat
deriving DecidableEq, Repr

/-- Whether the promise from one `fetchDeviceData` call resolved (`ok`) or
rejected (`err`).  Rejections happen for connection-level failures and for
HTTP 200 with an unparseable body. -/
inductive FetchOutcome where
  | ok (r : FetchResult)
  | err (r : FetchResult)
deriving DecidableEq, Repr

/-- Failure descriptor pushed onto `errors` by `aggregateDeviceData`. -/
structure ErrDesc where
  batch : Nat
  serialNumbers : List String
  error : Option String
  statusCode : Nat
deriving DecidableEq, Repr

/-- The report object returned by `aggregateDeviceData`
(the wall-clock `executionTimeSeconds` field is not embedded). -/
structure Report where
  success : Bool
  totalDevices : Nat
  fetchedDevices : Nat
  failedBatches : Nat
  data : List DeviceRecord
  errors : List ErrDesc
deriving DecidableEq, Repr

/-- Observable scheduling events of one run: an HTTP attempt carrying the
given batch index, or a `sleep(ms)` call. -/
inductive Event where
  | attempt (batch : Nat)
  | sleep (ms : Nat)
deriving DecidableEq, Repr

/-! ## Batcher: `createBatches(array, batchSize)`

The source is the loop
`for (let i = 0; i < array.length; i += batchSize) push(array.slice(i, i + batchSize))`.
`createBatchesLoop` is the direct translation: JavaScript numbers become `Int`
(so non-positive sizes are representable), `Array.prototype.slice` becomes
`jsSlice`, and the loop is unrolled with an explicit fuel counter so that
non-termination is observable as `none` for every fuel. -/

/-- Index normalization of `Array.prototype.slice`: a negative index counts
from the end (clamped at 0), a non-negative one is clamped at the length. -/
def jsSliceIdx (len : Nat) (x : Int) : Nat :=
  if x < 0 then ((len : Int) + x).toNat else min x.toNat len

/-- JavaScript `array.slice(start, stop)`. -/
def jsSlice (l : List α) (start stop : Int) : List α :=
  (l.take (jsSliceIdx l.length stop)).drop (jsSliceIdx l.length start)

/-- Direct translation of the `createBatches` loop.  One fuel unit is spent
per iteration; `none` means the loop was still running when fuel ran out. -/
def createBatchesLoop (array : List α) (batchSize : Int) :
    Nat → Int → List (List α) → Option (List (List α))
  | 0, _, _ => none
  | fuel + 1, i, batches =>
    if i < (array.length : Int) then
      createBatchesLoop array batchSize fuel (i + batchSize)
        (batches ++ [jsSlice array i (i + batchSize)])
    else
      some batches

/-- Recursion the loop performs when `batchSize` is positive: take a chunk,
continue on the rest.  Fuel-indexed so that it is structural; `createBatches`
instantiates the fuel with the list length, which suffices for positive
sizes. -/
def createBatchesGo (batchSize : Nat) : Nat → List α → List (List α)
  | _, [] => []
  | 0, _ :: _ => []
  | fuel + 1, a :: l =>
    (a :: l).take batchSize :: createBatchesGo batchSize fuel ((a :: l).drop batchSize)

/-- `createBatches` for a positive batch size (proved equivalent to the
source loop in `createBatchesLoop_eq_createBatches`). -/
def createBatches (array : List α) (batchSize : Nat) : List (List α) :=
  createBatchesGo batchSize array.length array

/-! ## MD5 (RFC 1321), as used by `crypto.createHash("md5")`

Machine words are `Nat` reduced modulo `2^32` by `mask32`; the digest is the
usual 16 little-endian bytes rendered as 32 lowercase hex characters.  The
implementation is validated below against the RFC test vectors. -/

def mask32 (x : Nat) : Nat := x % 4294967296

def rotl32 (x n : Nat) : Nat := mask32 ((x <<< n) ||| (x >>> (32 - n)))

/-- The 64 sine-derived round constants of MD5. -/
def md5K : List Nat :=
  [0xd76aa478, 0xe8c7b756, 0x242070db, 0xc1bdceee,
   0xf57c0faf, 0x4787c62a, 0xa8304613, 0xfd469501,
   0x698098d8, 0x8b44f7af, 0xffff5bb1, 0x895cd7be,
   0x6b901122, 0xfd987193, 0xa679438e, 0x49b40821,
   0xf61e2562, 0xc040b340, 0x265e5a51, 0xe9b6c7aa,
   0xd62f105d, 0x02441453, 0xd8a1e681, 0xe7d3fbc8,
   0x21e1cde6, 0xc33707d6, 0xf4d50d87, 0x455a14ed,
   0xa9e3e905, 0xfcefa3f8, 0x676f02d9, 0x8d2a4c8a,
   0xfffa3942, 0x8771f681, 0x6d9d6122, 0xfde5380c,
   0xa4beea44, 0x4bdecfa9, 0xf6bb4b60, 0xbebfbc70,
   0x289b7ec6, 0xeaa127fa, 0xd4ef3085, 0x04881d05,
   0xd9d4d039, 0xe6db99e5, 0x1fa27cf8, 0xc4ac5665,
   0xf4292244, 0x432aff97, 0xab9423a7, 0xfc93a039,
   0x655b59c3, 0x8f0ccc92, 0xffeff47d, 0x85845dd1,
   0x6fa87e4f, 0xfe2ce6e0, 0xa3014314, 0x4e0811a1,
   0xf7537e82, 0xbd3af235, 0x2ad7d2bb, 0xeb86d391]

/-- The 64 per-round left-rotation amounts of MD5. -/
def md5S : List Nat :=
  [7, 12, 17, 22, 7, 12, 17, 22, 7, 12, 17, 22, 7, 12, 17, 22,
   5, 9, 14, 20, 5, 9, 14, 20, 5, 9, 14, 20, 5, 9, 14, 20,
   4, 11, 16, 23, 4, 11, 16, 23, 4, 11, 16, 23, 4, 11, 16, 23,
   6, 10, 15, 21, 6, 10, 15, 21, 6, 10, 15, 21, 6, 10, 15, 21]

/-- The four MD5 round mixing functions, selected by the round index. -/
def md5F (i b c d : Nat) : Nat :=
  if i < 16 then (b &&& c) ||| ((b ^^^ 4294967295) &&& d)
  else if i < 32 then (d &&& b) ||| ((d ^^^ 4294967295) &&& c)
  else if i < 48 then b ^^^ c ^^^ d
  else c ^^^ (b ||| (d ^^^ 4294967295))

/-- Message-word index consumed at round `i`. -/
def md5g (i : Nat) : Nat :=
  if i < 16 then i
  else if i < 32 then (5 * i + 1) % 16
  else if i < 48 then (3 * i + 5) % 16
  else (7 * i) % 16

/-- Little-endian 32-bit word `j` of a 64-byte chunk. -/
def le32 (chunk : List Nat) (j : Nat) : Nat :=
  chunk.getD (4 * j) 0 + 256 * chunk.getD (4 * j + 1) 0 +
    65536 * chunk.getD (4 * j + 2) 0 + 16777216 * chunk.getD (4 * j + 3) 0

/-- One MD5 round on the state `(a, b, c, d)`. -/
def md5Step (M : Nat → Nat) (st : Nat × Nat × Nat × Nat) (i : Nat) : Nat × Nat × Nat × Nat :=
  let f := mask32 (md5F i st.2.1 st.2.2.1 st.2.2.2 + st.1 + md5K.getD i 0 + M (md5g i))
  (st.2.2.2, mask32 (st.2.1 + rotl32 f (md5S.getD i 0)), st.2.1, st.2.2.1)

/-- Process one 64-byte chunk: 64 rounds, then add into the running state. -/
def md5ProcessChunk (st : Nat × Nat × Nat × Nat) (chunk : List Nat) : Nat × Nat × Nat × Nat :=
  let r := (List.range 64).foldl (md5Step (le32 chunk)) st
  (mask32 (st.1 + r.1), mask32 (st.2.1 + r.2.1),
   mask32 (st.2.2.1 + r.2.2.1), mask32 (st.2.2.2 + r.2.2.2))

def md5Init : Nat × Nat × Nat × Nat := (0x67452301, 0xefcdab89, 0x98badcfe, 0x10325476)

/-- The `count` little-endian bytes of `n`. -/
def bytesLE (count n : Nat) : List Nat := (List.range count).map (fun j => n / 256 ^ j % 256)

/-- MD5 padding: a `0x80` byte, zeros up to 56 mod 64, then the 64-bit
little-endian bit length. -/
def md5Pad (msg : List Nat) : List Nat :=
  msg ++ 128 ::
    (List.replicate ((119 - msg.length % 64) % 64) 0 ++ bytesLE 8 ((8 * msg.length) % 2 ^ 64))

/-- Split a byte list into 64-byte chunks (fuel-indexed; fuel equal to the
length always suffices). -/
def chunks64 : Nat → List Nat → List (List Nat)
  | _, [] => []
  | 0, _ :: _ => []
  | fuel + 1, a :: l => (a :: l).take 64 :: chunks64 fuel ((a :: l).drop 64)

/-- Final MD5 state (four 32-bit words) of a byte message. -/
def md5Words (msg : List Nat) : Nat × Nat × Nat × Nat :=
  let padded := md5Pad msg
  (chunks64 padded.length padded).foldl md5ProcessChunk md5Init

/-- The 16-byte MD5 digest. -/
def md5Bytes (msg : List Nat) : List Nat :=
  let w := md5Words msg
  bytesLE 4 w.1 ++ bytesLE 4 w.2.1 ++ bytesLE 4 w.2.2.1 ++ bytesLE 4 w.2.2.2

/-- The lowercase hex alphabet used by `digest("hex")`. -/
def hexDigits : List Char := "0123456789abcdef".toList

def hexChar (n : Nat) : Char := hexDigits.getD n '0'

/-- The digest rendered as a lowercase hexadecimal string
(`crypto ... .digest("hex")`). -/
def md5Hex (msg : List Nat) : String :=
  String.mk (((md5Bytes msg).map (fun byte => [hexChar (byte / 16 % 16), hexChar (byte % 16)])).flatten)

/-- UTF-8 encoding of one code point (`hash.update` encodes strings as
UTF-8 by default). -/
def utf8Bytes (c : Nat) : List Nat :=
  if c < 128 then [c]
  else if c < 2048 then [192 + c / 64, 128 + c % 64]
  else if c < 65536 then [224 + c / 4096, 128 + c / 64 % 64, 128 + c % 64]
  else [240 + c / 262144, 128 + c / 4096 % 64, 128 + c / 64 % 64, 128 + c % 64]

def strBytes (s : String) : List Nat := (s.toList.map (fun ch => utf8Bytes ch.toNat)).flatten

/-! ## Signer (client.js `generateSignature`) and server `securityCheck` -/

/-- client.js: `MD5(CONFIG.API_URL + CONFIG.API_TOKEN + timestamp)` in hex. -/
def generateSignature (timestamp : String) : String :=
  md5Hex (strBytes (CONFIG_API_URL ++ CONFIG_API_TOKEN ++ timestamp))

/-- server.js `securityCheck`: the expected signature
`MD5(url + SECRET_TOKEN + timestamp)` in hex. -/
def serverExpectedSig (url timestamp : String) : String :=
  md5Hex (strBytes (url ++ SECRET_TOKEN ++ timestamp))

inductive SecurityResult where
  | missingHeaders
  | invalidSignature
  | pass
deriving DecidableEq, Repr

/-- JavaScript truthiness of a possibly-absent string header: absent,
`undefined` and `""` are falsy. -/
def jsTruthy : Option String → Bool
  | none => false
  | some s => !s.isEmpty

/-- server.js `securityCheck` middleware on the two headers and the request
url: 401 for missing headers, 401 for a signature mismatch, else pass. -/
def securityCheck (sigHeader tsHeader : Option String) (url : String) : SecurityResult :=
  if jsTruthy tsHeader = false ∨ jsTruthy sigHeader = false then
    SecurityResult.missingHeaders
  else if sigHeader.getD "" ≠ serverExpectedSig url (tsHeader.getD "") then
    SecurityResult.invalidSignature
  else
    SecurityResult.pass

/-! ## Transport Client (client.js `fetchDeviceData`)

The network and `JSON.parse` are oracles: `HttpResult` is what the wire
produced, and `parse body = none` models `JSON.parse` throwing, while
`parse body = some d` models a parsed object whose `data` field is `d`
(possibly absent).  `fetchDeviceData` itself is the source's classification:
resolve on HTTP 200 + parse success, reject on a parse error, resolve with
`success: false` on any other status, reject with `statusCode: 0` on a
connection-level error. -/

inductive HttpResult where
  | response (statusCode : Nat) (body : String)
  | networkError (message : String)
deriving DecidableEq, Repr

def fetchDeviceData (parse : String → Option (Option (List DeviceRecord))) :
    HttpResult → FetchOutcome
  | HttpResult.networkError msg => FetchOutcome.err ⟨false, none, some msg, 0⟩
  | HttpResult.response code body =>
    if code = 200 then
      match parse body with
      | none => FetchOutcome.err ⟨false, none, some "Failed to parse response", code⟩
      | some d => FetchOutcome.ok ⟨true, d, none, code⟩
    else
      FetchOutcome.ok ⟨false, none, some body, code⟩

/-! ## Retry Policy (client.js `fetchWithRetry`)

`client n` is the settled promise of the `n`-th `fetchDeviceData` call (the
timestamp changes per attempt, so attempts are indexed).  The trace records
the attempt (tagged with the batch index `b`) and every `sleep` call.  The
source recursion is guarded by `retryCount < CONFIG.MAX_RETRIES`; `budget` is
the structural fuel, and the top-level entry `fetchWithRetry` supplies
`CONFIG_MAX_RETRIES`, which makes the fuel-exhaustion arms unreachable. -/

def fetchWithRetryT (client : Nat → FetchOutcome) (b : Nat) :
    Nat → Nat → FetchResult × List Event
  | retryCount, 0 =>
    match client retryCount with
    | FetchOutcome.ok r => (r, [Event.attempt b])
    | FetchOutcome.err r => (r, [Event.attempt b])
  | retryCount, bud + 1 =>
    match client retryCount with
    | FetchOutcome.ok r =>
      if r.success = false ∧ r.statusCode = 429 ∧ retryCount < CONFIG_MAX_RETRIES then
        let rest := fetchWithRetryT client b (retryCount + 1) bud
        (rest.1, Event.attempt b :: Event.sleep CONFIG_RETRY_DELAY_MS :: rest.2)
      else
        (r, [Event.attempt b])
    | FetchOutcome.err r =>
      if retryCount < CONFIG_MAX_RETRIES then
        let rest := fetchWithRetryT client b (retryCount + 1) bud
        (rest.1, Event.attempt b :: Event.sleep CONFIG_RETRY_DELAY_MS :: rest.2)
      else
        (r, [Event.attempt b])

/-- `fetchWithRetry(snList, host, port)` with the default `retryCount = 0`. -/
def fetchWithRetry (client : Nat → FetchOutcome) (b : Nat) : FetchResult × List Event :=
  fetchWithRetryT client b 0 CONFIG_MAX_RETRIES

def isAttempt : Event → Bool
  | Event.attempt _ => true
  | Event.sleep _ => false

/-- Number of HTTP attempts recorded in a retry trace. -/
def attemptCount (p : FetchResult × List Event) : Nat := p.2.countP isAttempt

/-! ## Aggregation Driver (client.js `aggregateDeviceData`) -/

/-- JavaScript `String(i).padStart(3, "0")`. -/
def padStart3 (s : String) : String :=
  String.mk (List.replicate (3 - s.length) '0') ++ s

/-- client.js `generateSerialNumbers`: `SN-000` .. `SN-499`. -/
def generateSerialNumbers : List String :=
  (List.range 500).map (fun i => "SN-" ++ padStart3 (toString i))

/-- Terminal result the Retry Policy hands the driver for batch `j`
(`clients j` is the attempt oracle of batch `j`). -/
def batchResult (clients : Nat → Nat → FetchOutcome) (j : Nat) : FetchResult :=
  (fetchWithRetry (clients j) j).1

/-- The driver's per-batch success test, JS `result.success && result.data`
(an absent `data` field is falsy, any array is truthy). -/
def batchOk (clients : Nat → Nat → FetchOutcome) (j : Nat) : Prop :=
  (batchResult clients j).success = true ∧ (batchResult clients j).data.isSome = true

instance (clients : Nat → Nat → FetchOutcome) (j : Nat) : Decidable (batchOk clients j) :=
  inferInstanceAs (Decidable (_ ∧ _))

/-- The `for (let i = 0; ...)` loop of `aggregateDeviceData`: accumulated
records, accumulated failure descriptors, and the event trace.  `n` is the
total number of batches (`batches.length`), used for the
`if (i < batches.length - 1) await sleep(RATE_LIMIT_MS)` guard. -/
def aggregateGo (clients : Nat → Nat → FetchOutcome) (n : Nat) :
    Nat → List (List String) → List DeviceRecord × List ErrDesc × List Event
  | _, [] => ([], [], [])
  | i, batch :: rest =>
    let r := fetchWithRetry (clients i) i
    let tail := aggregateGo clients n (i + 1) rest
    ((if r.1.success = true ∧ r.1.data.isSome = true
        then r.1.data.getD [] ++ tail.1 else tail.1),
     (if r.1.success = true ∧ r.1.data.isSome = true
        then tail.2.1 else ⟨i + 1, batch, r.1.error, r.1.statusCode⟩ :: tail.2.1),
     r.2 ++ (if i < n - 1 then [Event.sleep CONFIG_RATE_LIMIT_MS] else []) ++ tail.2.2)

/-- client.js `aggregateDeviceData`: generate the 500 serials, batch them by
`CONFIG.BATCH_SIZE`, drive every batch through the Retry Policy, and return
the report (`success` is the hardcoded `true` of the source). -/
def aggregateDeviceData (clients : Nat → Nat → FetchOutcome) : Report :=
  let serialNumbers := generateSerialNumbers
  let batches := createBatches serialNumbers CONFIG_BATCH_SIZE
  let run := aggregateGo clients batches.length 0 batches
  { success := true
    totalDevices := 500
    fetchedDevices := run.1.length
    failedBatches := run.2.1.length
    data := run.1
    errors := run.2.1 }

/-! ## Concrete oracles used to exercise the pipeline -/

/-- A 429 response as the mock server sends it. -/
def rateLimitedResult : FetchResult :=
  ⟨false, none, some "Too Many Requests. Limit: 1 req/sec.", 429⟩

/-- A Transport Client that is rate-limited on every attempt. -/
def rlClient : Nat → FetchOutcome := fun _ => FetchOutcome.ok rateLimitedResult

/-- A Transport Client whose every attempt yields HTTP 200 with a body
`JSON.parse` throws on. -/
def parseFailClient : Nat → FetchOutcome :=
  fun _ => fetchDeviceData (fun _ => none) (HttpResult.response 200 "not json")

/-- A Transport Client whose every attempt yields HTTP 500. -/
def otherFailClient : Nat → FetchOutcome :=
  fun _ => fetchDeviceData (fun _ => none) (HttpResult.response 500 "Internal Server Error")

/-- Batch oracles under which every batch terminally fails with HTTP 500. -/
def allFailClients : Nat → Nat → FetchOutcome := fun _ => otherFailClient

/-- A `FetchOutcome` that counts as RateLimited for the Retry Policy: a
resolved result with `success: false` and status 429. -/
def isRateLimitedOutcome (o : FetchOutcome) : Prop :=
  ∃ r, o = FetchOutcome.ok r ∧ r.success = false ∧ r.statusCode = 429

end EnergyGrid

namespace EnergyGrid

/-! # Theorems -/

/-! ## Batcher -/

/-- The fuel of `createBatchesGo` is irrelevant once it covers the list
length (for a positive batch size). -/
theorem createBatchesGo_fuel {α : Type} (s : Nat) (hs : 0 < s) :
    ∀ (f1 : Nat) (f2 : Nat) (l : List α), l.length ≤ f1 → l.length ≤ f2 →
      createBatchesGo s f1 l = createBatchesGo s f2 l := by
  intro f1
  induction f1 with
  | zero =>
    intro f2 l h1 _
    have : l = [] := List.eq_nil_of_length_eq_zero (Nat.le_zero.mp h1)
    subst this
    cases f2 <;> simp [createBatchesGo]
  | succ f ih =>
    intro f2 l h1 h2
    cases l with
    | nil => cases f2 <;> simp [createBatchesGo]
    | cons a t =>
      cases f2 with
      | zero => simp at h2
      | succ g =>
        simp only [createBatchesGo]
        congr 1
        apply ih
        · simp only [List.length_drop, List.length_cons]
          simp only [List.length_cons] at h1
          omega
        · simp only [List.length_drop, List.length_cons]
          simp only [List.length_cons] at h2
          omega

/-- Unfolding equation of `createBatches` on a nonempty list. -/
theorem createBatches_cons {α : Type} (a : α) (t : List α) (s : Nat) (hs : 0 < s) :
    createBatches (a :: t) s = (a :: t).take s :: createBatches ((a :: t).drop s) s := by
  show createBatchesGo s (a :: t).length (a :: t) = _
  simp only [List.length_cons, createBatchesGo]
  congr 1
  apply createBatchesGo_fuel s hs
  · simp only [List.length_drop, List.length_cons]
    omega
  · exact Nat.le_refl _

theorem createBatches_nil {α : Type} (s : Nat) : createBatches ([] : List α) s = [] := rfl

/-- `createBatches` returns no batch at all only for the empty population. -/
theorem createBatches_eq_nil_iff {α : Type} (l : List α) (s : Nat) (hs : 0 < s) :
    createBatches l s = [] ↔ l = [] := by
  cases l with
  | nil => simp [createBatches_nil]
  | cons a t => simp [createBatches_cons a t s hs]

/-- Concatenating the batches in order reproduces the population. -/
theorem createBatches_flatten {α : Type} (s : Nat) (hs : 0 < s) (l : List α) :
    (createBatches l s).flatten = l := by
  have main : ∀ (n : Nat) (l : List α), l.length ≤ n → (createBatches l s).flatten = l := by
    intro n
    induction n with
    | zero =>
      intro l h
      have : l = [] := List.eq_nil_of_length_eq_zero (Nat.le_zero.mp h)
      subst this
      simp [createBatches_nil]
    | succ n ih =>
      intro l h
      cases l with
      | nil => simp [createBatches_nil]
      | cons a t =>
        rw [createBatches_cons a t s hs, List.flatten_cons, ih]
        · exact List.take_append_drop s (a :: t)
        · simp only [List.length_drop, List.length_cons]
          simp only [List.length_cons] at h
          omega
  exact main l.length l (Nat.le_refl _)

/-- Every batch except possibly the last has length exactly `s`. -/
theorem createBatches_dropLast_length {α : Type} (s : Nat) (hs : 0 < s) (l : List α) :
    ∀ b ∈ (createBatches l s).dropLast, b.length = s := by
  have main : ∀ (n : Nat) (l : List α), l.length ≤ n →
      ∀ b ∈ (createBatches l s).dropLast, b.length = s := by
    intro n
    induction n with
    | zero =>
      intro l h
      have : l = [] := List.eq_nil_of_length_eq_zero (Nat.le_zero.mp h)
      subst this
      simp [createBatches_nil]
    | succ n ih =>
      intro l h b hb
      cases l with
      | nil => simp [createBatches_nil] at hb
      | cons a t =>
        rw [createBatches_cons a t s hs] at hb
        rcases hrest : createBatches ((a :: t).drop s) s with _ | ⟨c, rest2⟩
        · rw [hrest] at hb
          simp at hb
        · rw [hrest, List.dropLast_cons₂] at hb
          rcases List.mem_cons.mp hb with hb1 | hb2
          · subst hb1
            have hlen : s < (a :: t).length := by
              by_contra hc
              have : (a :: t).drop s = [] := List.drop_eq_nil_iff.mpr (by omega)
              rw [this, createBatches_nil] at hrest
              exact List.cons_ne_nil _ _ hrest.symm
            simp only [List.length_take, List.length_cons]
            simp only [List.length_cons] at hlen
            omega
          · rw [← hrest] at hb2
            refine ih ((a :: t).drop s) ?_ b hb2
            simp only [List.length_drop, List.length_cons]
            simp only [List.length_cons] at h
            omega
  exact main l.length l (Nat.le_refl _)

/-- The last batch holds the remainder: `l.length % s`, or `s` when the
population divides evenly. -/
theorem createBatches_getLast_length {α : Type} (s : Nat) (hs : 0 < s) (l : List α)
    (hne : l ≠ []) :
    ((createBatches l s).getLastD []).length =
      (if l.length % s = 0 then s else l.length % s) := by
  have main : ∀ (n : Nat) (l : List α), l.length ≤ n → l ≠ [] →
      ((createBatches l s).getLastD []).length =
        (if l.length % s = 0 then s else l.length % s) := by
    intro n
    induction n with
    | zero =>
      intro l h hne
      exact absurd (List.eq_nil_of_length_eq_zero (Nat.le_zero.mp h)) hne
    | succ n ih =>
      intro l h hne
      cases l with
      | nil => exact absurd rfl hne
      | cons a t =>
        rw [createBatches_cons a t s hs]
        rcases hrest : createBatches ((a :: t).drop s) s with _ | ⟨c, rest2⟩
        · -- the whole population fits in one batch: `drop s` is empty
          have hle : (a :: t).length ≤ s := by
            have := (createBatches_eq_nil_iff ((a :: t).drop s) s hs).mp hrest
            have := List.drop_eq_nil_iff.mp this
            omega
          have hpos : 0 < (a :: t).length := by simp
          have hsing : ([(a :: t).take s] : List (List α)).getLastD [] = (a :: t).take s := rfl
          rw [hsing, List.length_take]
          rcases Nat.lt_or_ge (a :: t).length s with hlt | hge
          · rw [if_neg, Nat.mod_eq_of_lt hlt]
            · omega
            · rw [Nat.mod_eq_of_lt hlt]
              omega
          · have heq : (a :: t).length = s := Nat.le_antisymm hle hge
            rw [heq, Nat.mod_self, if_pos rfl]
            omega
        · -- more than one batch: recurse on the dropped population
          have hdrop_ne : (a :: t).drop s ≠ [] := by
            intro hnil
            rw [hnil, createBatches_nil] at hrest
            exact List.cons_ne_nil _ _ hrest.symm
          have hlen : s < (a :: t).length := by
            by_contra hc
            exact hdrop_ne (List.drop_eq_nil_iff.mpr (by omega))
          rw [List.getLastD_cons, List.getLastD_cons, ← List.getLastD_cons ([] : List α) c rest2,
            ← hrest]
          rw [ih ((a :: t).drop s) ?hlen hdrop_ne]
          case hlen =>
            simp only [List.length_drop, List.length_cons]
            simp only [List.length_cons] at h
            omega
          have hmod : ((a :: t).drop s).length % s = (a :: t).length % s := by
            simp only [List.length_drop]
            conv_rhs => rw [show (a :: t).length = s + ((a :: t).length - s) by omega]
            rw [Nat.add_mod_left]
          rw [hmod]
  exact main l.length l (Nat.le_refl _) hne

/-- No batch is ever empty (for a positive size). -/
theorem createBatches_no_empty {α : Type} (s : Nat) (hs : 0 < s) (l : List α) :
    ∀ b ∈ createBatches l s, b ≠ [] := by
  have main : ∀ (n : Nat) (l : List α), l.length ≤ n → ∀ b ∈ createBatches l s, b ≠ [] := by
    intro n
    induction n with
    | zero =>
      intro l h
      have : l = [] := List.eq_nil_of_length_eq_zero (Nat.le_zero.mp h)
      subst this
      simp [createBatches_nil]
    | succ n ih =>
      intro l h b hb
      cases l with
      | nil => simp [createBatches_nil] at hb
      | cons a t =>
        rw [createBatches_cons a t s hs] at hb
        rcases List.mem_cons.mp hb with hb1 | hb2
        · subst hb1
          simp only [ne_eq, List.take_eq_nil_iff]
          push_neg
          exact ⟨by omega, List.cons_ne_nil _ _⟩
        · refine ih ((a :: t).drop s) ?_ b hb2
          simp only [List.length_drop, List.length_cons]
          simp only [List.length_cons] at h
          omega
  exact main l.length l (Nat.le_refl _)

/-- Claim C1: for every population and positive batch size `s`,
`createBatches` returns batches whose in-order concatenation is exactly the
population, every batch except possibly the last has length `s`, the last
batch has length `population.length mod s` (or `s` when evenly divisible),
and no batch is empty. -/
theorem createBatches_partition_c1 {α : Type} (l : List α) (s : Nat) (hs : 0 < s) :
    (createBatches l s).flatten = l ∧
    (∀ b ∈ (createBatches l s).dropLast, b.length = s) ∧
    (l ≠ [] → ((createBatches l s).getLastD []).length =
      (if l.length % s = 0 then s else l.length % s)) ∧
    (∀ b ∈ createBatches l s, b ≠ []) :=
  ⟨createBatches_flatten s hs l, createBatches_dropLast_length s hs l,
    fun hne => createBatches_getLast_length s hs l hne, createBatches_no_empty s hs l⟩

/-- Witness for C1 at the population `["a", "b", "c"]` with batch size 2. -/
theorem createBatches_partition_c1_witness :
    (createBatches ["a", "b", "c"] 2).flatten = ["a", "b", "c"] ∧
    (∀ b ∈ (createBatches ["a", "b", "c"] 2).dropLast, b.length = 2) ∧
    (["a", "b", "c"] ≠ ([] : List String) →
      ((createBatches ["a", "b", "c"] 2).getLastD []).length =
        (if (["a", "b", "c"] : List String).length % 2 = 0 then 2
         else (["a", "b", "c"] : List String).length % 2)) ∧
    (∀ b ∈ createBatches ["a", "b", "c"] 2, b ≠ []) :=
  createBatches_partition_c1 ["a", "b", "c"] 2 (by decide)

/-- With a non-positive `batchSize`, the loop index never advances past the
array length, so the source loop never exits: every fuel is exhausted. -/
theorem createBatchesLoop_stuck {α : Type} (l : List α) (s : Int) (hs : s ≤ 0) :
    ∀ (fuel : Nat) (i : Int) (acc : List (List α)), i < (l.length : Int) →
      createBatchesLoop l s fuel i acc = none := by
  intro fuel
  induction fuel with
  | zero => intro i acc _; rfl
  | succ f ih =>
    intro i acc hi
    simp only [createBatchesLoop, if_pos hi]
    exact ih (i + s) _ (by omega)

/-- `array.slice(i, i + s)` for in-range natural `i` is `take s` of the
suffix at `i`. -/
theorem jsSlice_take_drop {α : Type} (l : List α) (i s : Nat) (hi : i ≤ l.length) :
    jsSlice l (i : Int) (((i + s : Nat) : Int)) = (l.drop i).take s := by
  have hstart : jsSliceIdx l.length (i : Int) = i := by
    unfold jsSliceIdx
    rw [if_neg (by omega)]
    have h1 : ((i : Int)).toNat = i := by omega
    rw [h1]
    omega
  have hstop : jsSliceIdx l.length ((i + s : Nat) : Int) = min (i + s) l.length := by
    unfold jsSliceIdx
    rw [if_neg (by omega)]
    have h1 : (((i + s : Nat) : Int)).toNat = i + s := by omega
    rw [h1]
  unfold jsSlice
  rw [hstart, hstop, List.drop_take]
  apply List.take_eq_take.mpr
  simp only [List.length_drop]
  omega

/-- Unfolding equation of `createBatches` on any nonempty list. -/
theorem createBatches_ne_nil_unfold {α : Type} (l : List α) (s : Nat) (hs : 0 < s)
    (hne : l ≠ []) :
    createBatches l s = l.take s :: createBatches (l.drop s) s := by
  cases l with
  | nil => exact absurd rfl hne
  | cons a t => exact createBatches_cons a t s hs

/-- For a positive batch size, the source loop terminates (with fuel covering
the population) and produces exactly the recursive partition. -/
theorem createBatchesLoop_eq_createBatches {α : Type} (s : Nat) (hs : 0 < s) :
    ∀ (fuel : Nat) (l : List α) (i : Nat) (acc : List (List α)),
      l.length - i < fuel →
      createBatchesLoop l (s : Int) fuel (i : Int) acc =
        some (acc ++ createBatches (l.drop i) s) := by
  intro fuel
  induction fuel with
  | zero => intro l i acc h; exact absurd h (by omega)
  | succ f ih =>
    intro l i acc h
    by_cases hi : i < l.length
    · have hcast : ((i : Int) < (l.length : Int)) := by exact_mod_cast hi
      simp only [createBatchesLoop, if_pos hcast]
      have hadd : (i : Int) + (s : Int) = ((i + s : Nat) : Int) := by push_cast; ring
      rw [hadd, ih l (i + s) _ (by omega), jsSlice_take_drop l i s (Nat.le_of_lt hi)]
      have hdne : l.drop i ≠ [] := by
        intro hnil
        have := List.drop_eq_nil_iff.mp hnil
        omega
      rw [createBatches_ne_nil_unfold (l.drop i) s hs hdne, List.drop_drop]
      simp [List.append_assoc]
    · have hcast : ¬ ((i : Int) < (l.length : Int)) := by exact_mod_cast hi
      simp only [createBatchesLoop, if_neg hcast]
      have hdnil : l.drop i = [] := List.drop_eq_nil_iff.mpr (by omega)
      rw [hdnil, createBatches_nil, List.append_nil]

/-- Claim C6 counterexample: on the nonempty population `["SN-000"]` with the
non-positive size 0, `createBatches` does not terminate with an error — the
source loop simply never terminates (no fuel completes it), contrary to the
claim that a non-positive size makes the operation fail. -/
theorem createBatches_c6_counterexample :
    ¬ ∃ fuel, (createBatchesLoop (["SN-000"] : List String) 0 fuel 0 []).isSome = true := by
  rintro ⟨fuel, h⟩
  rw [createBatchesLoop_stuck ["SN-000"] 0 (by omega) fuel 0 [] (by norm_num)] at h
  simp at h

/-- Claim C6 (amended): `createBatches` performs no validation of `size`.
For a non-positive size and a nonempty population the source loop never
terminates (it does not fail with an error), and for every positive size it
is a total, side-effect-free function computing the partition. -/
theorem createBatches_c6_amended {α : Type} :
    (∀ (l : List α) (s : Int), s ≤ 0 → l ≠ [] →
      ∀ fuel, createBatchesLoop l s fuel 0 [] = none) ∧
    (∀ (l : List α) (s : Nat), 0 < s → ∀ fuel, l.length < fuel →
      createBatchesLoop l (s : Int) fuel 0 [] = some (createBatches l s)) := by
  constructor
  · intro l s hs hne fuel
    apply createBatchesLoop_stuck l s hs fuel 0 []
    have : 0 < l.length := List.length_pos.mpr hne
    omega
  · intro l s hs fuel hfuel
    have := createBatchesLoop_eq_createBatches s hs fuel l 0 [] (by omega)
    simpa using this

/-- Witness for the amended C6: size 0 never terminates on `["SN-000"]`; size
2 terminates with the partition on `["a", "b", "c"]`. -/
theorem createBatches_c6_amended_witness :
    createBatchesLoop (["SN-000"] : List String) 0 5 0 [] = none ∧
    createBatchesLoop (["a", "b", "c"] : List String) ((2 : Nat) : Int) 4 0 [] =
      some (createBatches ["a", "b", "c"] 2) :=
  ⟨createBatches_c6_amended.1 ["SN-000"] 0 (by omega) (by decide) 5,
   createBatches_c6_amended.2 ["a", "b", "c"] 2 (by decide) 4 (by decide)⟩

/-! ## Retry Policy -/

/-- Every retry trace starts with the HTTP attempt itself. -/
theorem fetchWithRetryT_trace_head (client : Nat → FetchOutcome) (b : Nat) :
    ∀ (rc bud : Nat), ∃ t, (fetchWithRetryT client b rc bud).2 = Event.attempt b :: t := by
  intro rc bud
  cases bud with
  | zero =>
    rcases h : client rc with r | r <;> simp only [fetchWithRetryT, h] <;> exact ⟨_, rfl⟩
  | succ bud =>
    rcases h : client rc with r | r <;> simp only [fetchWithRetryT, h] <;> split <;>
      exact ⟨_, rfl⟩

/-- A retry trace contains only the attempt events of its own batch and the
fixed 2000ms backoff sleeps. -/
theorem fetchWithRetryT_trace_events (client : Nat → FetchOutcome) (b : Nat) :
    ∀ (bud rc : Nat), ∀ e ∈ (fetchWithRetryT client b rc bud).2,
      e = Event.attempt b ∨ e = Event.sleep CONFIG_RETRY_DELAY_MS := by
  intro bud
  induction bud with
  | zero =>
    intro rc e he
    rcases h : client rc with r | r <;>
      simp only [fetchWithRetryT, h, List.mem_cons, List.not_mem_nil, or_false] at he <;>
      exact Or.inl he
  | succ bud ih =>
    intro rc e he
    rcases h : client rc with r | r <;>
    · simp only [fetchWithRetryT, h] at he
      split at he
      · simp only [List.mem_cons] at he
        rcases he with he | he | he
        · exact Or.inl he
        · exact Or.inr he
        · exact ih (rc + 1) e he
      · simp only [List.mem_cons, List.not_mem_nil, or_false] at he
        exact Or.inl he

/-- The number of attempts is bounded by the budget plus one. -/
theorem fetchWithRetryT_attempts_le (client : Nat → FetchOutcome) (b : Nat) :
    ∀ (bud rc : Nat), (fetchWithRetryT client b rc bud).2.countP isAttempt ≤ bud + 1 := by
  intro bud
  induction bud with
  | zero =>
    intro rc
    rcases h : client rc with r | r <;>
      simp [fetchWithRetryT, h, List.countP_cons, List.countP_nil, isAttempt]
  | succ bud ih =>
    intro rc
    rcases h : client rc with r | r <;>
    · simp only [fetchWithRetryT, h]
      split
      · have := ih (rc + 1)
        simp [List.countP_cons, List.countP_nil, isAttempt]
        omega
      · simp [List.countP_cons, List.countP_nil, isAttempt]

/-- Claim C2: the Retry Policy makes at most `MAX_RETRIES` additional
attempts beyond the first, and against a Transport Client that is
RateLimited on every attempt it makes exactly `MAX_RETRIES + 1 = 4` attempts
and returns the last RateLimited outcome. -/
theorem fetchWithRetry_c2 :
    (∀ (client : Nat → FetchOutcome) (b : Nat),
      attemptCount (fetchWithRetry client b) ≤ CONFIG_MAX_RETRIES + 1) ∧
    (∀ (client : Nat → FetchOutcome) (b : Nat),
      (∀ n, isRateLimitedOutcome (client n)) →
        attemptCount (fetchWithRetry client b) = CONFIG_MAX_RETRIES + 1 ∧
        FetchOutcome.ok (fetchWithRetry client b).1 = client CONFIG_MAX_RETRIES) := by
  constructor
  · intro client b
    exact fetchWithRetryT_attempts_le client b CONFIG_MAX_RETRIES 0
  · intro client b h
    obtain ⟨r0, h0, hs0, hc0⟩ := h 0
    obtain ⟨r1, h1, hs1, hc1⟩ := h 1
    obtain ⟨r2, h2, hs2, hc2⟩ := h 2
    obtain ⟨r3, h3, hs3, hc3⟩ := h 3
    constructor
    · simp [fetchWithRetry, attemptCount, CONFIG_MAX_RETRIES, fetchWithRetryT,
        h0, h1, h2, h3, hs0, hs1, hs2, hs3, hc0, hc1, hc2, hc3,
        List.countP_cons, isAttempt]
    · show FetchOutcome.ok (fetchWithRetry client b).1 = client 3
      rw [h3]
      simp [fetchWithRetry, CONFIG_MAX_RETRIES, fetchWithRetryT,
        h0, h1, h2, h3, hs0, hs1, hs2, hs3, hc0, hc1, hc2, hc3]

/-- Witness for C2: the always-RateLimited client makes exactly 4 attempts
and the terminal result is the 4th RateLimited outcome. -/
theorem fetchWithRetry_c2_witness :
    attemptCount (fetchWithRetry rlClient 0) = CONFIG_MAX_RETRIES + 1 ∧
    FetchOutcome.ok (fetchWithRetry rlClient 0).1 = rlClient CONFIG_MAX_RETRIES :=
  fetchWithRetry_c2.2 rlClient 0 (fun _ => ⟨rateLimitedResult, rfl, rfl, rfl⟩)

/-- Claim C3 counterexample: a Transport Client whose every attempt is HTTP
200 with an unparseable body (a `JSON.parse` rejection) is retried like a
network error — 4 attempts are made, not the single attempt the claim
states. -/
theorem fetchWithRetry_c3_counterexample :
    attemptCount (fetchWithRetry parseFailClient 0) = 4 ∧
    attemptCount (fetchWithRetry parseFailClient 0) ≠ 1 := by
  constructor <;> decide

/-- Claim C3 (amended): an OtherFailure (resolved non-200, non-429 status) is
returned immediately after exactly one attempt; but a parse failure (HTTP 200
with an unparseable body) is a promise rejection, lands in the retry path
like a network error, and a client that always yields it sees
`MAX_RETRIES + 1 = 4` attempts. -/
theorem fetchWithRetry_c3_amended :
    (∀ (client : Nat → FetchOutcome) (b : Nat) (r : FetchResult),
      client 0 = FetchOutcome.ok r → r.success = false → r.statusCode ≠ 429 →
        fetchWithRetry client b = (r, [Event.attempt b])) ∧
    (∀ (parse : String → Option (Option (List DeviceRecord)))
        (responses : Nat → String) (b : Nat),
      (∀ n, parse (responses n) = none) →
        attemptCount (fetchWithRetry
          (fun n => fetchDeviceData parse (HttpResult.response 200 (responses n)))
          b) = CONFIG_MAX_RETRIES + 1) := by
  constructor
  · intro client b r h0 hs hc
    simp [fetchWithRetry, fetchWithRetryT, h0, hs, hc, CONFIG_MAX_RETRIES]
  · intro parse responses b h
    have hcl : ∀ n, fetchDeviceData parse (HttpResult.response 200 (responses n)) =
        FetchOutcome.err ⟨false, none, some "Failed to parse response", 200⟩ := by
      intro n
      simp [fetchDeviceData, h n]
    simp [fetchWithRetry, attemptCount, CONFIG_MAX_RETRIES, fetchWithRetryT,
      hcl 0, hcl 1, hcl 2, hcl 3, List.countP_cons, isAttempt]

/-- Witness for the amended C3: one attempt for the always-500 client; four
attempts for the always-unparseable-200 client. -/
theorem fetchWithRetry_c3_amended_witness :
    fetchWithRetry otherFailClient 0 =
      (⟨false, none, some "Internal Server Error", 500⟩, [Event.attempt 0]) ∧
    attemptCount (fetchWithRetry
      (fun n => fetchDeviceData (fun _ => none)
        (HttpResult.response 200 ((fun _ => "not json") n))) 0) = CONFIG_MAX_RETRIES + 1 :=
  ⟨fetchWithRetry_c3_amended.1 otherFailClient 0
      ⟨false, none, some "Internal Server Error", 500⟩ rfl rfl (by decide),
   fetchWithRetry_c3_amended.2 (fun _ => none) (fun _ => "not json") 0 (fun _ => rfl)⟩

/-! ## Aggregation Driver -/

theorem aggregateGo_nil (clients : Nat → Nat → FetchOutcome) (n i : Nat) :
    aggregateGo clients n i [] = ([], [], []) := rfl

/-- Records accumulated at a loop step. -/
theorem aggregateGo_cons_data (clients : Nat → Nat → FetchOutcome) (n i : Nat)
    (batch : List String) (rest : List (List String)) :
    (aggregateGo clients n i (batch :: rest)).1 =
      (if batchOk clients i
       then (batchResult clients i).data.getD [] ++ (aggregateGo clients n (i + 1) rest).1
       else (aggregateGo clients n (i + 1) rest).1) := rfl

/-- Failure descriptors accumulated at a loop step. -/
theorem aggregateGo_cons_err (clients : Nat → Nat → FetchOutcome) (n i : Nat)
    (batch : List String) (rest : List (List String)) :
    (aggregateGo clients n i (batch :: rest)).2.1 =
      (if batchOk clients i
       then (aggregateGo clients n (i + 1) rest).2.1
       else ⟨i + 1, batch, (batchResult clients i).error, (batchResult clients i).statusCode⟩ ::
         (aggregateGo clients n (i + 1) rest).2.1) := rfl

/-- Events emitted at a loop step: the batch's retry trace, then the spacing
sleep unless this was the last batch, then the rest of the run. -/
theorem aggregateGo_cons_events (clients : Nat → Nat → FetchOutcome) (n i : Nat)
    (batch : List String) (rest : List (List String)) :
    (aggregateGo clients n i (batch :: rest)).2.2 =
      (fetchWithRetry (clients i) i).2 ++
        (if i < n - 1 then [Event.sleep CONFIG_RATE_LIMIT_MS] else []) ++
        (aggregateGo clients n (i + 1) rest).2.2 := rfl

/-- The accumulated records are the in-order concatenation of the record
lists of the successful batches. -/
theorem aggregateGo_data (clients : Nat → Nat → FetchOutcome) (n : Nat) :
    ∀ (bs : List (List String)) (i : Nat),
      (aggregateGo clients n i bs).1 =
        ((List.range' i bs.length).map
          (fun j => if batchOk clients j then (batchResult clients j).data.getD [] else [])).flatten := by
  intro bs
  induction bs with
  | nil => intro i; simp [aggregateGo_nil]
  | cons batch rest ih =>
    intro i
    rw [aggregateGo_cons_data, ih (i + 1)]
    simp only [List.length_cons, List.range'_succ, List.map_cons, List.flatten_cons]
    by_cases h : batchOk clients i
    · rw [if_pos h, if_pos h]
    · rw [if_neg h, if_neg h, List.nil_append]

/-- The accumulated errors are exactly one descriptor per failed batch, in
batch order, with the 1-based index, the batch contents, the terminal error
and its status code. -/
theorem aggregateGo_errors (clients : Nat → Nat → FetchOutcome) (n : Nat) :
    ∀ (bs : List (List String)) (i : Nat),
      (aggregateGo clients n i bs).2.1 =
        (List.enumFrom i bs).filterMap
          (fun p => if batchOk clients p.1 then none
            else some ⟨p.1 + 1, p.2, (batchResult clients p.1).error,
              (batchResult clients p.1).statusCode⟩) := by
  intro bs
  induction bs with
  | nil => intro i; simp [aggregateGo_nil]
  | cons batch rest ih =>
    intro i
    rw [aggregateGo_cons_err, ih (i + 1)]
    simp only [List.enumFrom, List.filterMap_cons]
    by_cases h : batchOk clients i
    · rw [if_pos h, if_pos h]
    · rw [if_neg h, if_neg h]

/-- Every in-range batch index appears as an attempt in the run's trace:
no batch is skipped, whatever the earlier outcomes were. -/
theorem aggregateGo_attempt_mem (clients : Nat → Nat → FetchOutcome) (n : Nat) :
    ∀ (bs : List (List String)) (i j : Nat), i ≤ j → j < i + bs.length →
      Event.attempt j ∈ (aggregateGo clients n i bs).2.2 := by
  intro bs
  induction bs with
  | nil =>
    intro i j h1 h2
    simp only [List.length_nil, Nat.add_zero] at h2
    omega
  | cons batch rest ih =>
    intro i j h1 h2
    rw [aggregateGo_cons_events]
    by_cases hj : j = i
    · subst hj
      obtain ⟨t, ht⟩ := fetchWithRetryT_trace_head (clients j) j 0 CONFIG_MAX_RETRIES
      apply List.mem_append_left
      apply List.mem_append_left
      show Event.attempt j ∈ (fetchWithRetryT (clients j) j 0 CONFIG_MAX_RETRIES).2
      rw [ht]
      exact List.mem_cons_self _ _
    · apply List.mem_append_right
      apply ih (i + 1) j (by omega)
      simp only [List.length_cons] at h2
      omega

/-- Filtering the error list for one batch index: it holds exactly the one
descriptor of that batch when the batch failed and is in range. -/
theorem aggregateGo_errors_filter (clients : Nat → Nat → FetchOutcome) (n : Nat) :
    ∀ (bs : List (List String)) (i k : Nat),
      ((aggregateGo clients n i bs).2.1).filter (fun e => e.batch == k + 1) =
        (if i ≤ k ∧ k < i + bs.length ∧ ¬ batchOk clients k
         then [⟨k + 1, bs.getD (k - i) [], (batchResult clients k).error,
                (batchResult clients k).statusCode⟩]
         else []) := by
  intro bs
  induction bs with
  | nil =>
    intro i k
    rw [aggregateGo_nil]
    simp only [List.filter_nil, List.length_nil]
    rw [if_neg (by omega)]
  | cons batch rest ih =>
    intro i k
    rw [aggregateGo_cons_err]
    by_cases hoki : batchOk clients i
    · rw [if_pos hoki, ih (i + 1) k]
      by_cases hk : i + 1 ≤ k ∧ k < (i + 1) + rest.length ∧ ¬ batchOk clients k
      · have hcond : i ≤ k ∧ k < i + (batch :: rest).length ∧ ¬ batchOk clients k := by
          obtain ⟨hk1, hk2, hk3⟩ := hk
          refine ⟨by omega, ?_, hk3⟩
          simp only [List.length_cons]
          omega
        rw [if_pos hk, if_pos hcond]
        have hidx : k - i = (k - (i + 1)) + 1 := by omega
        rw [hidx, List.getD_cons_succ]
      · rw [if_neg hk, if_neg]
        rintro ⟨ha, hb, hc⟩
        rcases Nat.eq_or_lt_of_le ha with he | hlt
        · exact hc (he ▸ hoki)
        · simp only [List.length_cons] at hb
          exact hk ⟨hlt, by omega, hc⟩
    · rw [if_neg hoki, List.filter_cons]
      by_cases hki : k = i
      · subst hki
        simp only [beq_self_eq_true, if_pos]
        rw [ih (k + 1) k, if_neg (by omega)]
        rw [if_pos ⟨Nat.le_refl k, by simp only [List.length_cons]; omega, hoki⟩]
        simp only [Nat.sub_self, List.getD_cons_zero]
      · have hne : ((⟨i + 1, batch, (batchResult clients i).error,
            (batchResult clients i).statusCode⟩ : ErrDesc).batch == k + 1) = false := by
          simp only [beq_eq_false_iff_ne, ne_eq]
          omega
        rw [hne]
        simp only [Bool.false_eq_true, if_false]
        rw [ih (i + 1) k]
        by_cases hk : i + 1 ≤ k ∧ k < (i + 1) + rest.length ∧ ¬ batchOk clients k
        · have hcond : i ≤ k ∧ k < i + (batch :: rest).length ∧ ¬ batchOk clients k := by
            obtain ⟨hk1, hk2, hk3⟩ := hk
            refine ⟨by omega, ?_, hk3⟩
            simp only [List.length_cons]
            omega
          rw [if_pos hk, if_pos hcond]
          have hidx : k - i = (k - (i + 1)) + 1 := by omega
          rw [hidx, List.getD_cons_succ]
        · rw [if_neg hk, if_neg]
          rintro ⟨ha, hb, hc⟩
          rcases Nat.eq_or_lt_of_le ha with he | hlt
          · exact hki he.symm
          · simp only [List.length_cons] at hb
            exact hk ⟨hlt, by omega, hc⟩

/-- The run's event trace is the per-batch retry traces joined with exactly
one 1000ms spacing sleep between consecutive batches and none at the end. -/
theorem aggregateGo_events_intersperse (clients : Nat → Nat → FetchOutcome) (n : Nat) :
    ∀ (bs : List (List String)) (i : Nat), i + bs.length = n →
      (aggregateGo clients n i bs).2.2 =
        (List.intersperse [Event.sleep CONFIG_RATE_LIMIT_MS]
          ((List.range' i bs.length).map (fun j => (fetchWithRetry (clients j) j).2))).flatten := by
  intro bs
  induction bs with
  | nil => intro i h; simp [aggregateGo_nil]
  | cons batch rest ih =>
    intro i h
    rw [aggregateGo_cons_events]
    cases rest with
    | nil =>
      have hni : ¬ (i < n - 1) := by
        simp only [List.length_cons, List.length_nil] at h
        omega
      rw [if_neg hni, aggregateGo_nil]
      simp [List.range'_succ, List.intersperse]
    | cons b2 t2 =>
      have hlt : i < n - 1 := by
        simp only [List.length_cons] at h
        omega
      rw [if_pos hlt, ih (i + 1) (by simp only [List.length_cons] at h ⊢; omega)]
      simp only [List.length_cons, List.range'_succ, List.map_cons,
        List.intersperse_cons_cons, List.flatten_cons, List.singleton_append]
      simp [List.append_assoc]

/-- Claim C4: every batch whose attempt ends in a terminal failure gets
exactly one failure descriptor — its 1-based index, its contents, the error
detail and the status code — appended to the errors accumulator, and the run
still dispatches every other batch (no early abort). -/
theorem aggregate_c4 (clients : Nat → Nat → FetchOutcome) (bs : List (List String)) (i : Nat)
    (hi : i < bs.length) (hfail : ¬ batchOk clients i) :
    ((aggregateGo clients bs.length 0 bs).2.1).filter (fun e => e.batch == i + 1) =
      [⟨i + 1, bs.getD i [], (batchResult clients i).error,
        (batchResult clients i).statusCode⟩] ∧
    (∀ j, j < bs.length → Event.attempt j ∈ (aggregateGo clients bs.length 0 bs).2.2) := by
  constructor
  · rw [aggregateGo_errors_filter clients bs.length bs 0 i,
      if_pos ⟨Nat.zero_le i, by omega, hfail⟩]
    simp only [Nat.sub_zero]
  · intro j hj
    exact aggregateGo_attempt_mem clients bs.length bs 0 j (Nat.zero_le j) (by omega)

/-- Witness for C4: one failed singleton batch produces exactly its own
descriptor and is still dispatched. -/
theorem aggregate_c4_witness :
    ((aggregateGo allFailClients 1 0 [["SN-000"]]).2.1).filter (fun e => e.batch == 0 + 1) =
      [⟨0 + 1, [["SN-000"]].getD 0 [], (batchResult allFailClients 0).error,
        (batchResult allFailClients 0).statusCode⟩] ∧
    (∀ j, j < 1 → Event.attempt j ∈ (aggregateGo allFailClients 1 0 [["SN-000"]]).2.2) :=
  aggregate_c4 allFailClients [["SN-000"]] 0 (by decide) (by decide)

/-- Claim C5: the report counts are consistent — `totalDevices` is the
population size, `fetchedDevices` is the length of `data`, which is the
in-order concatenation of the successful batches' record lists, and
`failedBatches` is the length of `errors`, which holds one descriptor per
terminally failed batch in batch order. -/
theorem aggregate_c5 (clients : Nat → Nat → FetchOutcome) :
    (aggregateDeviceData clients).totalDevices = generateSerialNumbers.length ∧
    (aggregateDeviceData clients).fetchedDevices = (aggregateDeviceData clients).data.length ∧
    (aggregateDeviceData clients).data =
      ((List.range (createBatches generateSerialNumbers CONFIG_BATCH_SIZE).length).map
        (fun j => if batchOk clients j then (batchResult clients j).data.getD [] else [])).flatten ∧
    (aggregateDeviceData clients).failedBatches = (aggregateDeviceData clients).errors.length ∧
    (aggregateDeviceData clients).errors =
      (List.enumFrom 0 (createBatches generateSerialNumbers CONFIG_BATCH_SIZE)).filterMap
        (fun p => if batchOk clients p.1 then none
          else some ⟨p.1 + 1, p.2, (batchResult clients p.1).error,
            (batchResult clients p.1).statusCode⟩) := by
  refine ⟨?_, ?_, ?_, ?_, ?_⟩
  · simp only [aggregateDeviceData]
    simp [generateSerialNumbers]
  · simp only [aggregateDeviceData]
  · simp only [aggregateDeviceData]
    rw [aggregateGo_data, List.range_eq_range']
  · simp only [aggregateDeviceData]
  · simp only [aggregateDeviceData]
    rw [aggregateGo_errors]

/-- Claim C9: between any two consecutive batches the driver interposes
exactly one fixed 1000ms spacing sleep, independent of the batches'
outcomes, and no spacing sleep follows the last batch; the spacing sleep
never occurs inside a batch's own retry trace. -/
theorem aggregate_c9 (clients : Nat → Nat → FetchOutcome) (bs : List (List String)) :
    (aggregateGo clients bs.length 0 bs).2.2 =
      (List.intersperse [Event.sleep CONFIG_RATE_LIMIT_MS]
        ((List.range bs.length).map (fun j => (fetchWithRetry (clients j) j).2))).flatten ∧
    (∀ (j rc bud : Nat),
      Event.sleep CONFIG_RATE_LIMIT_MS ∉ (fetchWithRetryT (clients j) j rc bud).2) := by
  constructor
  · rw [aggregateGo_events_intersperse clients bs.length bs 0 (by omega),
      List.range_eq_range']
  · intro j rc bud hmem
    rcases fetchWithRetryT_trace_events (clients j) j bud rc _ hmem with h | h <;>
      simp [CONFIG_RATE_LIMIT_MS, CONFIG_RETRY_DELAY_MS] at h

/-- Claim C10: the report's `success` flag is hardcoded `true` for every
possible sequence of batch outcomes, including a run in which every batch
terminally fails and `fetchedDevices` is 0. -/
theorem aggregate_c10 :
    (∀ clients, (aggregateDeviceData clients).success = true) ∧
    (aggregateDeviceData allFailClients).fetchedDevices = 0 ∧
    (aggregateDeviceData allFailClients).success = true := by
  have hbr : ∀ j, batchResult allFailClients j =
      ⟨false, none, some "Internal Server Error", 500⟩ := fun _ => rfl
  have hok : ∀ j, ¬ batchOk allFailClients j := by
    intro j hj
    rw [batchOk, hbr j] at hj
    simp at hj
  refine ⟨fun clients => rfl, ?_, rfl⟩
  simp only [aggregateDeviceData]
  rw [aggregateGo_data, List.length_eq_zero, List.flatten_eq_nil_iff]
  intro l hl
  rw [List.mem_map] at hl
  obtain ⟨j, _, hj⟩ := hl
  rw [← hj, if_neg (hok j)]

/-! ## Signer: MD5 validation and the signature claims -/

set_option maxRecDepth 10000 in
/-- RFC 1321 test vector: the MD5 of the empty message. -/
theorem md5_vector_empty : md5Hex (strBytes "") = "d41d8cd98f00b204e9800998ecf8427e" := by
  decide

set_option maxRecDepth 10000 in
/-- RFC 1321 test vector: the MD5 of `"abc"`. -/
theorem md5_vector_abc : md5Hex (strBytes "abc") = "900150983cd24fb0d6963f7d28e17f72" := by
  decide

set_option maxRecDepth 20000 in
/-- RFC 1321 test vector: a 62-byte message spanning two padded chunks. -/
theorem md5_vector_alphanum :
    md5Hex (strBytes "ABCDEFGHIJKLMNOPQRSTUVWXYZabcdefghijklmnopqrstuvwxyz0123456789") =
      "d174ab98d277d9f5a5611c2c9f419d9f" := by
  decide

theorem bytesLE_length (count n : Nat) : (bytesLE count n).length = count := by
  simp [bytesLE]

/-- The digest always has exactly 16 bytes. -/
theorem md5Bytes_length (msg : List Nat) : (md5Bytes msg).length = 16 := by
  simp [md5Bytes, bytesLE_length]

/-- Hex rendering yields two characters per byte. -/
theorem hexPairs_length (l : List Nat) :
    ((l.map (fun byte => [hexChar (byte / 16 % 16), hexChar (byte % 16)])).flatten).length =
      2 * l.length := by
  induction l with
  | nil => simp
  | cons b t ih =>
    simp only [List.map_cons, List.flatten_cons, List.length_append, ih, List.length_cons,
      List.length_nil]
    omega

/-- The rendered digest always has exactly 32 characters. -/
theorem md5Hex_length (msg : List Nat) : (md5Hex msg).length = 32 := by
  have hmk : (md5Hex msg).length =
      ((md5Bytes msg).map (fun byte => [hexChar (byte / 16 % 16), hexChar (byte % 16)])).flatten.length :=
    rfl
  rw [hmk, hexPairs_length, md5Bytes_length]

/-- Every character of the rendered digest is a lowercase hex digit. -/
theorem hexChar_mem (n : Nat) : hexChar n ∈ hexDigits := by
  unfold hexChar
  rw [List.getD_eq_getElem?_getD]
  rcases h : hexDigits[n]? with _ | c
  · simp [Option.getD, hexDigits]
  · simp only [Option.getD_some]
    exact List.getElem?_mem h

theorem md5Hex_chars (msg : List Nat) :
    ∀ c ∈ (md5Hex msg).toList, c ∈ hexDigits := by
  intro c hc
  have hc2 : c ∈ ((md5Bytes msg).map
      (fun byte => [hexChar (byte / 16 % 16), hexChar (byte % 16)])).flatten := hc
  rw [List.mem_flatten] at hc2
  obtain ⟨l, hl, hcl⟩ := hc2
  rw [List.mem_map] at hl
  obtain ⟨byte, _, hb⟩ := hl
  rw [← hb] at hcl
  simp only [List.mem_cons, List.not_mem_nil, or_false] at hcl
  rcases hcl with h | h <;> exact h ▸ hexChar_mem _

theorem mask32_lt (x : Nat) : mask32 x < 4294967296 := Nat.mod_lt x (by norm_num)

/-- The four MD5 state words stay below `2^32` throughout. -/
theorem md5Words_bounded (msg : List Nat) :
    (md5Words msg).1 < 4294967296 ∧ (md5Words msg).2.1 < 4294967296 ∧
    (md5Words msg).2.2.1 < 4294967296 ∧ (md5Words msg).2.2.2 < 4294967296 := by
  have main : ∀ (cs : List (List Nat)) (st : Nat × Nat × Nat × Nat),
      st.1 < 4294967296 ∧ st.2.1 < 4294967296 ∧
        st.2.2.1 < 4294967296 ∧ st.2.2.2 < 4294967296 →
      ((cs.foldl md5ProcessChunk st).1 < 4294967296 ∧
       (cs.foldl md5ProcessChunk st).2.1 < 4294967296 ∧
       (cs.foldl md5ProcessChunk st).2.2.1 < 4294967296 ∧
       (cs.foldl md5ProcessChunk st).2.2.2 < 4294967296) := by
    intro cs
    induction cs with
    | nil => intro st h; exact h
    | cons c rest ih =>
      intro st _
      rw [List.foldl_cons]
      exact ih (md5ProcessChunk st c)
        ⟨mask32_lt _, mask32_lt _, mask32_lt _, mask32_lt _⟩
  exact main _ md5Init (by norm_num [md5Init])

/-- Claim C7 counterexample: `generateSignature` cannot be collision-free —
its range is finite (a 128-bit digest) while timestamps are unbounded, so two
distinct timestamps with the same token exist; "changing any one input
changes the token" is therefore false in the universal sense. -/
theorem generateSignature_c7_counterexample :
    ∃ t1 t2 : String, t1 ≠ t2 ∧ generateSignature t1 = generateSignature t2 := by
  obtain ⟨t1, t2, hne, heq⟩ := Finite.exists_ne_map_eq_of_infinite
    (fun t : String =>
      ((⟨(md5Words (strBytes (CONFIG_API_URL ++ CONFIG_API_TOKEN ++ t))).1,
          (md5Words_bounded _).1⟩ : Fin 4294967296),
       (⟨(md5Words (strBytes (CONFIG_API_URL ++ CONFIG_API_TOKEN ++ t))).2.1,
          (md5Words_bounded _).2.1⟩ : Fin 4294967296),
       (⟨(md5Words (strBytes (CONFIG_API_URL ++ CONFIG_API_TOKEN ++ t))).2.2.1,
          (md5Words_bounded _).2.2.1⟩ : Fin 4294967296),
       (⟨(md5Words (strBytes (CONFIG_API_URL ++ CONFIG_API_TOKEN ++ t))).2.2.2,
          (md5Words_bounded _).2.2.2⟩ : Fin 4294967296)))
  refine ⟨t1, t2, hne, ?_⟩
  have e1 := congrArg (fun q : Fin 4294967296 × Fin 4294967296 × Fin 4294967296 ×
    Fin 4294967296 => (q.1 : Nat)) heq
  have e2 := congrArg (fun q : Fin 4294967296 × Fin 4294967296 × Fin 4294967296 ×
    Fin 4294967296 => (q.2.1 : Nat)) heq
  have e3 := congrArg (fun q : Fin 4294967296 × Fin 4294967296 × Fin 4294967296 ×
    Fin 4294967296 => (q.2.2.1 : Nat)) heq
  have e4 := congrArg (fun q : Fin 4294967296 × Fin 4294967296 × Fin 4294967296 ×
    Fin 4294967296 => (q.2.2.2 : Nat)) heq
  simp only at e1 e2 e3 e4
  have hw : md5Words (strBytes (CONFIG_API_URL ++ CONFIG_API_TOKEN ++ t1)) =
      md5Words (strBytes (CONFIG_API_URL ++ CONFIG_API_TOKEN ++ t2)) :=
    Prod.ext e1 (Prod.ext e2 (Prod.ext e3 e4))
  simp only [generateSignature, md5Hex, md5Bytes]
  rw [hw]

/-- Claim C7 (amended): the Signer is a deterministic pure function — the
token is the MD5 digest of `path + secret + timestamp` rendered as a
fixed-length (32-character) lowercase-hexadecimal string, and identical
inputs always yield the identical token; but since the digest range is
finite while inputs are not, distinct inputs cannot always yield distinct
tokens (collisions necessarily exist, though none are known for realistic
timestamp inputs). -/
theorem generateSignature_c7_amended :
    (∀ ts : String, generateSignature ts =
      md5Hex (strBytes (CONFIG_API_URL ++ CONFIG_API_TOKEN ++ ts))) ∧
    (∀ ts : String, (generateSignature ts).length = 32) ∧
    (∀ ts : String, ∀ c ∈ (generateSignature ts).toList, c ∈ hexDigits) ∧
    (∀ t1 t2 : String, t1 = t2 → generateSignature t1 = generateSignature t2) :=
  ⟨fun _ => rfl, fun _ => md5Hex_length _, fun _ => md5Hex_chars _,
   fun _ _ h => congrArg generateSignature h⟩

/-- Witness for the amended C7 at the timestamp `"123"`. -/
theorem generateSignature_c7_amended_witness :
    (generateSignature "123").length = 32 ∧
    generateSignature "123" = generateSignature "123" :=
  ⟨generateSignature_c7_amended.2.1 "123",
   generateSignature_c7_amended.2.2.2 "123" "123" rfl⟩

/-- Claim C8: for every (truthy) timestamp, the token the client Signer
attaches equals the signature the server `securityCheck` recomputes for
`/device/real/query`, so a client-signed request always passes the signature
check and is never rejected with 401 Invalid Signature. -/
theorem securityCheck_c8 (ts : String) (hts : ts ≠ "") :
    generateSignature ts = serverExpectedSig "/device/real/query" ts ∧
    securityCheck (some (generateSignature ts)) (some ts) "/device/real/query" =
      SecurityResult.pass := by
  have hsig : generateSignature ts = serverExpectedSig "/device/real/query" ts := rfl
  refine ⟨hsig, ?_⟩
  have hlen : (generateSignature ts).length = 32 := md5Hex_length _
  have hsne : generateSignature ts ≠ "" := by
    intro h0
    rw [h0] at hlen
    simp at hlen
  unfold securityCheck
  rw [if_neg, if_neg]
  · intro hne
    rw [Option.getD_some] at hne
    exact hne hsig
  · rintro (h | h)
    · simp only [jsTruthy] at h
      have h2 : ts.isEmpty = true := by
        revert h
        cases ts.isEmpty <;> simp
      exact hts ((String.isEmpty_iff ts).mp h2)
    · simp only [jsTruthy] at h
      have h2 : (generateSignature ts).isEmpty = true := by
        revert h
        cases (generateSignature ts).isEmpty <;> simp
      exact hsne ((String.isEmpty_iff _).mp h2)

/-- Witness for C8 at the timestamp `"123"`. -/
theorem securityCheck_c8_witness :
    generateSignature "123" = serverExpectedSig "/device/real/query" "123" ∧
    securityCheck (some (generateSignature "123")) (some "123") "/device/real/query" =
      SecurityResult.pass :=
  securityCheck_c8 "123" (by decide)

end EnergyGrid
